import Mathlib

/-!
# A verification development for the sims3-tracker repository

Shallow embedding of the three source files:

* `db/scripts/db_create.py`   — the SQLite schema (saves, lifetime_wishes,
  lifetime_wishes_progress) and the initial store contents;
* `db/scripts/load_lifetime_wishes.py` — the goal loader and the icon
  resolver `find_icon_file`;
* `app.py` — the progress-service operations (`create_new_save`,
  `set_active_save`, `update_lifetime_wish_progress`,
  `get_lifetime_wishes_with_progress`).

Modelling conventions:

* A database state is a record of row lists plus the AUTOINCREMENT counters
  (SQLite AUTOINCREMENT never reuses an id, so each counter only grows).
* The ambient clock (`datetime.now()` / `CURRENT_DATE`) is passed as an
  explicit `today : String` argument.
* Python string methods (`replace`, `lower`, `strip`, `split`) are modelled
  by executable functions over `List Char`; `str.replace` replaces
  non-overlapping occurrences in a single left-to-right pass, exactly as
  Python does.
* Python's `sqlite3` module leaves `PRAGMA foreign_keys` at its default
  value OFF, and no script in the repository ever turns it on; consequently
  the `ON DELETE CASCADE` clauses declared in the schema never fire at run
  time.  The model reflects the executed behaviour: deleting goals does not
  touch progress rows.
* An early `return` from `load_lifetime_wishes` leaves the sqlite
  connection without a `commit`, so every statement executed on it is
  rolled back; the committed store state is therefore the function's input
  state on that path.  A separate trace function records which SQL
  statements the function executes, in source order.
-/

namespace Sims3

/-! ## Python string primitives -/

/-- One step bound is consumed per character scanned, so `s.length` fuel is
always enough; the fuel only serves to make the recursion structural. -/
def pyReplaceFuel (pat rep : List Char) : Nat → List Char → List Char
  | _, [] => []
  | 0, s => s
  | fuel + 1, c :: rest =>
    if pat ≠ [] ∧ pat.isPrefixOf (c :: rest) then
      rep ++ pyReplaceFuel pat rep fuel ((c :: rest).drop pat.length)
    else
      c :: pyReplaceFuel pat rep fuel rest

/-- Python `s.replace(pat, rep)`: replace every non-overlapping occurrence
of `pat`, scanning left to right in a single pass. -/
def pyReplace (s pat rep : String) : String :=
  ⟨pyReplaceFuel pat.data rep.data s.data.length s.data⟩

/-- Python `s.lower()` (ASCII case folding). -/
def pyLower (s : String) : String :=
  ⟨s.data.map Char.toLower⟩

/-- Python `s.strip()`: remove whitespace from both ends. -/
def pyStrip (s : String) : String :=
  ⟨((s.data.dropWhile Char.isWhitespace).reverse.dropWhile Char.isWhitespace).reverse⟩

/-- Python `s.split(sep)` for a single-character separator, on `List Char`;
`"a__b".split("_") = ["a", "", "b"]` and `"".split("_") = [""]`. -/
def splitOnCharL (c : Char) : List Char → List (List Char)
  | [] => [[]]
  | x :: rest =>
    match splitOnCharL c rest with
    | h :: t => if x == c then [] :: h :: t else (x :: h) :: t
    | [] => if x == c then [[], []] else [[x]]

/-- Python `s.split(sep)` for a single-character separator. -/
def pySplit (c : Char) (s : String) : List String :=
  (splitOnCharL c s.data).map fun l => ⟨l⟩

/-- Python `needle in hay` (substring containment). -/
def containsSub (hay needle : List Char) : Bool :=
  match hay with
  | [] => needle.isEmpty
  | _ :: rest => needle.isPrefixOf hay || containsSub rest needle

/-- The apostrophe character (codepoint 39). -/
def apostropheChar : Char := Char.ofNat 39

/-- The double-quote character (codepoint 34). -/
def quoteChar : Char := Char.ofNat 34

/-! ## Data model (`db_create.py`)

Only the columns the application reads and writes are modelled; each record
mirrors one row of the corresponding table. -/

/-- One row of the `saves` table. -/
structure Save where
  id : Nat
  name : String
  description : String
  created_date : String
  is_active : Bool
deriving DecidableEq

/-- One row of the `lifetime_wishes` table.  The loader never supplies
`description`, so it stays NULL (`none`). -/
structure LifetimeWish where
  id : Nat
  name : String
  source : String
  completion_type : String
  icon_name : String
  description : Option String
  created_date : String
deriving DecidableEq

/-- One row of the `lifetime_wishes_progress` table.  `completed_date` is a
nullable DATE column. -/
structure ProgressRow where
  id : Nat
  save_id : Nat
  lifetime_wish_id : Nat
  completed : Bool
  completed_date : Option String
  notes : String
deriving DecidableEq

/-- The store: the three tables plus their AUTOINCREMENT counters. -/
structure DB where
  saves : List Save
  lifetime_wishes : List LifetimeWish
  lifetime_wishes_progress : List ProgressRow
  next_save_id : Nat
  next_wish_id : Nat
  next_progress_id : Nat
deriving DecidableEq

/-- `create_database` from `db_create.py`: empty tables except for the
default save, inserted with `is_active = 1`. -/
def create_database (today : String) : DB :=
  { saves := [{ id := 1, name := "My Main Save",
                description := "Default save file for tracking progress",
                created_date := today, is_active := true }],
    lifetime_wishes := [],
    lifetime_wishes_progress := [],
    next_save_id := 2,
    next_wish_id := 1,
    next_progress_id := 1 }

/-! ## Icon resolver (`find_icon_file` in `load_lifetime_wishes.py`) -/

/-- The normalisation chain of `find_icon_file` up to (but not including)
the final doubled-underscore replacement: lowercase, strip apostrophes,
double quotes, commas and colons, then turn hyphens and spaces into
underscores. -/
def preClean (name : String) : String :=
  let c1 := pyLower name
  let c2 := pyReplace c1 ⟨[apostropheChar]⟩ ""
  let c3 := pyReplace c2 ⟨[quoteChar]⟩ ""
  let c4 := pyReplace c3 "," ""
  let c5 := pyReplace c4 ":" ""
  let c6 := pyReplace c5 "-" "_"
  pyReplace c6 " " "_"

/-- The full `clean_name` computation: `preClean` followed by the single
`replace("__", "_")` pass. -/
def clean_name (name : String) : String :=
  pyReplace (preClean name) "__" "_"

/-- The `specific_mappings` dictionary, in source order. -/
def specific_mappings : List (String × String) :=
  [("season_traveler", "seasoned_traveler.png"),
   ("fashion_phenomenon", "w_lifetime_stylist.png"),
   ("paranormal_profiteer", "w_lifetime_ghosthunter.png"),
   ("nectar_making", "nectar_making.png")]

/-- The `patterns_to_try` list, in source order. -/
def patterns_to_try (clean : String) : List String :=
  [clean ++ ".png", "w_lifetime_" ++ clean ++ ".png", "w_" ++ clean ++ ".png"]

/-- `icon_file.replace(".png", "")` — note this removes every occurrence of
`".png"`, not just a trailing extension. -/
def icon_base_of (icon_file : String) : String :=
  pyReplace icon_file ".png" ""

/-- The final partial-matching loop of `find_icon_file`: first candidate
(in listing order) whose `icon_base` contains some name part longer than
three characters. -/
def substringFallback (name_parts : List String) (icon_files : List String) : Option String :=
  icon_files.find? fun icon_file =>
    name_parts.any fun part =>
      decide (part.length > 3) && containsSub (icon_base_of icon_file).data part.data

/-- `find_icon_file(name)`.  The directory snapshot is passed in as
`icon_dir_exists` (the `os.path.exists` check) and `icon_files` (the glob
result, basenames in listing order). -/
def find_icon_file (name : String) (icon_dir_exists : Bool) (icon_files : List String) : String :=
  let clean := clean_name name
  if icon_dir_exists = false then "PLACEHOLDER" else
  let mappingHit : Option String :=
    match (specific_mappings.find? fun kv => kv.1 == clean).map Prod.snd with
    | some mapped => if icon_files.contains mapped then some mapped else none
    | none => none
  let patternHit : Option String :=
    (patterns_to_try clean).find? fun p => icon_files.contains p
  match mappingHit with
  | some r => r
  | none =>
    match patternHit with
    | some r => r
    | none =>
      match substringFallback (pySplit '_' clean) icon_files with
      | some r => r
      | none => "PLACEHOLDER"

/-! ## Goal loader (`load_lifetime_wishes` in `load_lifetime_wishes.py`) -/

/-- One data row of `data/lifetime_wishes.csv` (the three columns the
loader reads). -/
structure CsvRow where
  Name : String
  Source : String
  Completion_Type : String
deriving DecidableEq

/-- The body of the loader's `for row in reader` loop: strip the fields,
resolve the icon, insert a `lifetime_wishes` row with a fresh id. -/
def insertWishRow (today : String) (icon_dir_exists : Bool) (icon_files : List String)
    (db : DB) (row : CsvRow) : DB :=
  let name := pyStrip row.Name
  let icon := find_icon_file name icon_dir_exists icon_files
  { db with
    lifetime_wishes := db.lifetime_wishes ++
      [{ id := db.next_wish_id, name := name, source := pyStrip row.Source,
         completion_type := pyStrip row.Completion_Type, icon_name := icon,
         description := none, created_date := today }],
    next_wish_id := db.next_wish_id + 1 }

/-- `load_lifetime_wishes()`, as committed store-state transformer.
`file = none` models a missing `data/lifetime_wishes.csv`.

The function first executes `DELETE FROM lifetime_wishes` on its
connection, then checks the file.  On the missing-file path it returns
before any `commit`, so the uncommitted delete is rolled back and the
committed state is unchanged.  On the success path the delete and the
inserts are committed together.  Since `PRAGMA foreign_keys` is never
enabled, the delete does not cascade into `lifetime_wishes_progress`. -/
def load_lifetime_wishes (today : String) (file : Option (List CsvRow))
    (icon_dir_exists : Bool) (icon_files : List String) (db : DB) : DB :=
  let conn : DB := { db with lifetime_wishes := [] }
  match file with
  | none => db
  | some rows => rows.foldl (insertWishRow today icon_dir_exists icon_files) conn

/-- The SQL statements `load_lifetime_wishes` can execute. -/
inductive LoaderOp where
  | deleteAllWishes : LoaderOp
  | insertWish (name source completion_type icon : String) : LoaderOp
  | commit : LoaderOp
deriving DecidableEq

/-- The statements `load_lifetime_wishes()` executes on its connection, in
source order: the `DELETE` comes first, unconditionally; the inserts and
the `commit` only happen when the input file exists. -/
def load_lifetime_wishes_trace (file : Option (List CsvRow))
    (icon_dir_exists : Bool) (icon_files : List String) : List LoaderOp :=
  LoaderOp.deleteAllWishes ::
    match file with
    | none => []
    | some rows =>
      (rows.map fun row =>
        let name := pyStrip row.Name
        LoaderOp.insertWish name (pyStrip row.Source) (pyStrip row.Completion_Type)
          (find_icon_file name icon_dir_exists icon_files)) ++ [LoaderOp.commit]

/-! ## Progress service (`app.py`) -/

/-- Error outcome of an INSERT that violates a UNIQUE constraint. -/
inductive SqlError where
  | constraintViolation : SqlError
deriving DecidableEq

/-- `create_new_save(name, description)`: plain INSERT of
`(name, description)`; the schema supplies `created_date` (CURRENT_DATE)
and `is_active` (default 0).  A duplicate name violates the UNIQUE
constraint on `saves.name`: sqlite raises, nothing is committed, and the
state is unchanged. -/
def create_new_save (name description today : String) (db : DB) : DB × Option SqlError :=
  if db.saves.any (fun s => s.name == name) then
    (db, some SqlError.constraintViolation)
  else
    ({ db with
       saves := db.saves ++
         [{ id := db.next_save_id, name := name, description := description,
            created_date := today, is_active := false }],
       next_save_id := db.next_save_id + 1 }, none)

/-- `set_active_save(save_id)`: `UPDATE saves SET is_active = 0` followed by
`UPDATE saves SET is_active = 1 WHERE id = save_id`, committed together. -/
def set_active_save (save_id : Nat) (db : DB) : DB :=
  let cleared := db.saves.map fun s => { s with is_active := false }
  let activated := cleared.map fun s =>
    if s.id = save_id then { s with is_active := true } else s
  { db with saves := activated }

/-- The Python default value of the `notes` parameter of
`update_lifetime_wish_progress`. -/
def notesDefault : String := ""

/-- `update_lifetime_wish_progress(save_id, lifetime_wish_id, completed,
notes="")`: derives `completed_date` as today iff `completed`, then
`INSERT OR REPLACE` keyed by the UNIQUE `(save_id, lifetime_wish_id)`
constraint — any existing row for the pair is deleted and the new row is
inserted with a fresh id. -/
def update_lifetime_wish_progress (today : String) (save_id lifetime_wish_id : Nat)
    (completed : Bool) (notes : String) (db : DB) : DB :=
  let completed_date : Option String := if completed then some today else none
  let kept := db.lifetime_wishes_progress.filter fun r =>
    !(r.save_id == save_id && r.lifetime_wish_id == lifetime_wish_id)
  { db with
    lifetime_wishes_progress := kept ++
      [{ id := db.next_progress_id, save_id := save_id,
         lifetime_wish_id := lifetime_wish_id, completed := completed,
         completed_date := completed_date, notes := notes }],
    next_progress_id := db.next_progress_id + 1 }

/-- The completion-checkbox handler in `main` calls the update with the
`notes` argument omitted, so Python substitutes the default `""`. -/
def checkbox_update (today : String) (save_id lifetime_wish_id : Nat)
    (completed : Bool) (db : DB) : DB :=
  update_lifetime_wish_progress today save_id lifetime_wish_id completed notesDefault db

/-- The notes text-box handler in `main` calls the update with the row's
current completion flag and the new notes. -/
def notes_update (today : String) (save_id lifetime_wish_id : Nat)
    (completed : Bool) (notes : String) (db : DB) : DB :=
  update_lifetime_wish_progress today save_id lifetime_wish_id completed notes db

/-- The stored progress row for a `(save_id, lifetime_wish_id)` pair, if
any (the row the UNIQUE constraint keeps unique). -/
def progressFor (db : DB) (save_id lifetime_wish_id : Nat) : Option ProgressRow :=
  db.lifetime_wishes_progress.find? fun r =>
    r.save_id == save_id && r.lifetime_wish_id == lifetime_wish_id

/-- `ORDER BY lw.source, lw.name` as a relation on wish rows. -/
def wishOrder (a b : LifetimeWish) : Prop :=
  a.source < b.source ∨ (a.source = b.source ∧ a.name ≤ b.name)

instance : DecidableRel wishOrder := fun a b =>
  inferInstanceAs (Decidable (a.source < b.source ∨ (a.source = b.source ∧ a.name ≤ b.name)))

/-- One row of the query result of `get_lifetime_wishes_with_progress`. -/
structure WishRow where
  id : Nat
  name : String
  source : String
  completion_type : String
  icon_name : String
  completed : Bool
  completed_date : Option String
  notes : Option String
deriving DecidableEq

/-- One joined row of the LEFT JOIN: the wish's columns together with that
save's progress row when one exists — `COALESCE` covers only the
`completed` column, so `completed_date` and `notes` stay NULL for goals
without a progress row. -/
def joinRow (db : DB) (save_id : Nat) (w : LifetimeWish) : WishRow :=
  match db.lifetime_wishes_progress.find? fun r =>
      r.lifetime_wish_id == w.id && r.save_id == save_id with
  | some r =>
    { id := w.id, name := w.name, source := w.source,
      completion_type := w.completion_type, icon_name := w.icon_name,
      completed := r.completed, completed_date := r.completed_date,
      notes := some r.notes }
  | none =>
    { id := w.id, name := w.name, source := w.source,
      completion_type := w.completion_type, icon_name := w.icon_name,
      completed := false, completed_date := none, notes := none }

/-- `get_lifetime_wishes_with_progress(save_id)`: LEFT JOIN of
`lifetime_wishes` with that save's progress rows, ordered by source then
name (`ORDER BY lw.source, lw.name`). -/
def get_lifetime_wishes_with_progress (save_id : Nat) (db : DB) : List WishRow :=
  (List.insertionSort wishOrder db.lifetime_wishes).map (joinRow db save_id)

/-! ## Operation sequences over the store -/

/-- The mutating operations reachable from the UI and the loader. -/
inductive Op where
  | createSave (name description today : String) : Op
  | activateSave (id : Nat) : Op
  | upsertProgress (today : String) (save_id lifetime_wish_id : Nat)
      (completed : Bool) (notes : String) : Op
  | reloadWishes (today : String) (file : Option (List CsvRow))
      (icon_dir_exists : Bool) (icon_files : List String) : Op
deriving DecidableEq

/-- Apply one operation to the store. -/
def step (db : DB) : Op → DB
  | .createSave n d t => (create_new_save n d t db).1
  | .activateSave i => set_active_save i db
  | .upsertProgress t s g c notes => update_lifetime_wish_progress t s g c notes db
  | .reloadWishes t file de icons => load_lifetime_wishes t file de icons db

/-- Apply a sequence of operations. -/
def run (db : DB) (ops : List Op) : DB :=
  ops.foldl step db

/-- Number of saves marked active. -/
def countActive (l : List Save) : Nat :=
  l.countP fun s => s.is_active

/-- Well-formedness of the `saves` table, maintained by the schema
(AUTOINCREMENT primary key) and the service code: distinct ids, ids below
the AUTOINCREMENT counter, and at most one active save. -/
def SavesInv (db : DB) : Prop :=
  (db.saves.map Save.id).Nodup ∧
  (∀ s ∈ db.saves, s.id < db.next_save_id) ∧
  countActive db.saves ≤ 1

instance (db : DB) : Decidable (SavesInv db) :=
  inferInstanceAs (Decidable (_ ∧ _ ∧ _))

/-! ## Spec-side definitions

These follow the wording of the specification, to be compared against the
definitions above that were translated from the source. -/

/-- Strip everything from the last dot onwards, scanning the reversed
character list. -/
def dropExtRev : List Char → Option (List Char)
  | [] => none
  | c :: rest => if c == '.' then some rest else dropExtRev rest

/-- The spec's "base name without extension" of a candidate filename. -/
def baseNameNoExt (f : String) : String :=
  match dropExtRev f.data.reverse with
  | some r => ⟨r.reverse⟩
  | none => f

/-- The spec's static lookup table, as a case distinction on the
normalized name. -/
def specLookup (clean : String) : Option String :=
  if clean = "season_traveler" then some "seasoned_traveler.png"
  else if clean = "fashion_phenomenon" then some "w_lifetime_stylist.png"
  else if clean = "paranormal_profiteer" then some "w_lifetime_ghosthunter.png"
  else if clean = "nectar_making" then some "nectar_making.png"
  else none

/-- The spec's substring fallback, parameterised by how a candidate's base
name is computed: the first candidate, in listing order, whose base
contains some underscore-separated name part longer than three
characters. -/
def specFallbackBase (base : String → String) (parts : List String) :
    List String → Option String
  | [] => none
  | f :: rest =>
    if parts.any fun part =>
        decide (part.length > 3) && containsSub (base f).data part.data then
      some f
    else specFallbackBase base parts rest

/-- The spec's icon-resolution cascade, parameterised by the base-name
computation used in the substring fallback: static lookup first, then the
three generated patterns in order, then the substring fallback, then the
"not found" sentinel. -/
def find_icon_spec_with (base : String → String) (name : String)
    (icon_files : List String) : String :=
  let clean := clean_name name
  let step2 : Option String :=
    match specLookup clean with
    | some mapped => if icon_files.contains mapped then some mapped else none
    | none => none
  let step3 : Option String :=
    if icon_files.contains (clean ++ ".png") then some (clean ++ ".png")
    else if icon_files.contains ("w_lifetime_" ++ clean ++ ".png") then
      some ("w_lifetime_" ++ clean ++ ".png")
    else if icon_files.contains ("w_" ++ clean ++ ".png") then
      some ("w_" ++ clean ++ ".png")
    else none
  match step2 with
  | some r => r
  | none =>
    match step3 with
    | some r => r
    | none =>
      match specFallbackBase base (pySplit '_' clean) icon_files with
      | some r => r
      | none => "PLACEHOLDER"

/-- The icon resolution exactly as the claim words it: the substring
fallback compares against the candidate's base name without extension. -/
def find_icon_spec (name : String) (icon_files : List String) : String :=
  find_icon_spec_with baseNameNoExt name icon_files

/-- The icon resolution with the fallback base as the code computes it:
the candidate filename with every occurrence of ".png" removed. -/
def find_icon_spec_pngstrip (name : String) (icon_files : List String) : String :=
  find_icon_spec_with icon_base_of name icon_files

/-! ## Underscore-run analysis for the normalisation claim -/

/-- Does the string start with an underscore? -/
def startsU : List Char → Bool
  | c :: _ => c == '_'
  | [] => false

/-- Does the string start with two underscores? -/
def startsUU : List Char → Bool
  | a :: b :: _ => a == '_' && b == '_'
  | _ => false

/-- Does the string contain two consecutive underscores? -/
def hasDoubleU : List Char → Bool
  | a :: b :: t => (a == '_' && b == '_') || hasDoubleU (b :: t)
  | _ => false

/-- Does the string contain three consecutive underscores? -/
def hasTripleU : List Char → Bool
  | a :: b :: c :: t => (a == '_' && b == '_' && c == '_') || hasTripleU (b :: c :: t)
  | _ => false

/-- Reference form of a single left-to-right pass replacing each
non-overlapping pair of underscores with one underscore. -/
def squeeze : List Char → List Char
  | [] => []
  | [c] => [c]
  | a :: b :: t =>
    if a = '_' ∧ b = '_' then '_' :: squeeze t else a :: squeeze (b :: t)

/-! ## Concrete stores and inputs used in closed theorems -/

/-- A CSV data row. -/
def exampleRow : CsvRow :=
  { Name := "Renaissance Sim", Source := "Base Game", Completion_Type := "Checkmark" }

/-- A store with one goal and one progress row referencing it, as left by
earlier use of the application. -/
def exampleDb1 : DB :=
  { saves := [{ id := 1, name := "My Main Save",
                description := "Default save file for tracking progress",
                created_date := "2024-01-01", is_active := true }],
    lifetime_wishes := [{ id := 1, name := "Old Wish", source := "Base Game",
                          completion_type := "Checkmark", icon_name := "PLACEHOLDER",
                          description := none, created_date := "2024-01-01" }],
    lifetime_wishes_progress := [{ id := 1, save_id := 1, lifetime_wish_id := 1,
                                   completed := true, completed_date := some "2024-01-02",
                                   notes := "done early" }],
    next_save_id := 2, next_wish_id := 2, next_progress_id := 2 }

/-- A store with one goal and no progress rows. -/
def exampleDb8 : DB :=
  { saves := [{ id := 1, name := "My Main Save",
                description := "Default save file for tracking progress",
                created_date := "2024-01-01", is_active := true }],
    lifetime_wishes := [{ id := 1, name := "Gold Digger", source := "Base Game",
                          completion_type := "Checkmark", icon_name := "PLACEHOLDER",
                          description := none, created_date := "2024-01-01" }],
    lifetime_wishes_progress := [],
    next_save_id := 2, next_wish_id := 2, next_progress_id := 1 }

/-- A store that already contains a save named "Alpha". -/
def exampleDb9 : DB :=
  { saves := [{ id := 1, name := "Alpha", description := "",
                created_date := "2024-01-01", is_active := true }],
    lifetime_wishes := [], lifetime_wishes_progress := [],
    next_save_id := 2, next_wish_id := 1, next_progress_id := 1 }

/-- A store with one completed progress row carrying non-empty notes. -/
def exampleDb10 : DB :=
  { saves := [{ id := 1, name := "My Main Save", description := "",
                created_date := "2024-01-01", is_active := true }],
    lifetime_wishes := [{ id := 7, name := "Chess Legend", source := "Base Game",
                          completion_type := "Checkmark", icon_name := "PLACEHOLDER",
                          description := none, created_date := "2024-01-01" }],
    lifetime_wishes_progress := [{ id := 3, save_id := 1, lifetime_wish_id := 7,
                                   completed := true, completed_date := some "2024-02-01",
                                   notes := "with the neighbour" }],
    next_save_id := 2, next_wish_id := 8, next_progress_id := 4 }

/-! ## Helper lemmas -/

theorem find?_filter_not_self {α : Type} (p : α → Bool) (l : List α) :
    (l.filter fun x => !(p x)).find? p = none := by
  refine List.find?_eq_none.mpr ?_
  intro x hx
  have hmem := List.mem_filter.mp hx
  simpa using hmem.2

theorem filter_filter_not_self {α : Type} (p : α → Bool) (l : List α) :
    (l.filter fun x => !(p x)).filter p = [] := by
  induction l with
  | nil => rfl
  | cons a l ih =>
    by_cases h : p a = true <;> simp [List.filter_cons, h, ih]

/-- After an upsert, the stored row for the pair is exactly the row the
call wrote. -/
theorem progressFor_update (today : String) (s g : Nat) (c : Bool) (notes : String)
    (db : DB) :
    progressFor (update_lifetime_wish_progress today s g c notes db) s g =
      some { id := db.next_progress_id, save_id := s, lifetime_wish_id := g,
             completed := c, completed_date := if c then some today else none,
             notes := notes } := by
  unfold progressFor update_lifetime_wish_progress
  rw [List.find?_append, find?_filter_not_self]
  simp

/-! ## Claim theorems -/

/-- C3: `update_lifetime_wish_progress` derives `completed_date` from the
ambient clock alone — a call with `completed = true` stores today's date,
and a subsequent call with `completed = false` stores NULL, for every
caller-supplied notes value; the function has no caller-supplied date
parameter at all. -/
theorem c3_completed_date_derivation (today₁ today₂ : String) (s g : Nat)
    (notes₁ notes₂ : String) (db : DB) :
    ((progressFor (update_lifetime_wish_progress today₁ s g true notes₁ db) s g).map
        fun r => (r.completed, r.completed_date)) = some (true, some today₁) ∧
    ((progressFor (update_lifetime_wish_progress today₂ s g false notes₂
          (update_lifetime_wish_progress today₁ s g true notes₁ db)) s g).map
        fun r => (r.completed, r.completed_date)) = some (false, none) := by
  constructor <;> rw [progressFor_update] <;> rfl

/-- C4: after two upserts for the same `(save_id, lifetime_wish_id)` pair
the table holds exactly one row for the pair, carrying the second call's
values — the `INSERT OR REPLACE` keyed by the UNIQUE constraint never
produces a duplicate. -/
theorem c4_pair_unique_second_call_wins (t₁ t₂ : String) (s g : Nat) (c₁ c₂ : Bool)
    (n₁ n₂ : String) (db : DB) :
    (((update_lifetime_wish_progress t₂ s g c₂ n₂
          (update_lifetime_wish_progress t₁ s g c₁ n₁ db)).lifetime_wishes_progress.filter
        fun r => r.save_id == s && r.lifetime_wish_id == g).map
      fun r => (r.completed, r.completed_date, r.notes)) =
      [(c₂, if c₂ then some t₂ else none, n₂)] := by
  conv_lhs => rw [update_lifetime_wish_progress]
  rw [List.filter_append, filter_filter_not_self]
  simp

/-- C1: evaluation at the failing input.  Reloading one data row into a
store holding one goal and one progress row leaves the goal count equal to
the file's row count, but the pre-existing progress row survives as an
orphan: `PRAGMA foreign_keys` is never enabled, so the schema's `ON DELETE
CASCADE` never fires. -/
theorem c1_reload_leaves_orphaned_progress :
    (load_lifetime_wishes "2024-01-03" (some [exampleRow]) false [] exampleDb1).lifetime_wishes.length = 1 ∧
    (load_lifetime_wishes "2024-01-03" (some [exampleRow]) false [] exampleDb1).lifetime_wishes_progress =
      exampleDb1.lifetime_wishes_progress ∧
    ((load_lifetime_wishes "2024-01-03" (some [exampleRow]) false [] exampleDb1).lifetime_wishes_progress.all
      fun p =>
        (load_lifetime_wishes "2024-01-03" (some [exampleRow]) false [] exampleDb1).lifetime_wishes.all
          fun w => p.lifetime_wish_id != w.id) = true := by
  decide

/-- C5 counterexample: on the missing-file path the loader has already
executed the `DELETE FROM lifetime_wishes` statement — it does not abort
before deleting. -/
theorem c5_delete_executed_before_file_check :
    LoaderOp.deleteAllWishes ∈ load_lifetime_wishes_trace none true [] := by
  decide

/-- C5 amended: when the input file does not exist, the loader executes the
`DELETE` on its connection before the existence check, but returns without
ever committing, so the committed store state (goals and progress rows
alike) is unchanged when it returns. -/
theorem c5_missing_file_commits_nothing (today : String) (de : Bool)
    (icons : List String) (db : DB) :
    load_lifetime_wishes today none de icons db = db ∧
    LoaderOp.deleteAllWishes ∈ load_lifetime_wishes_trace none de icons ∧
    LoaderOp.commit ∉ load_lifetime_wishes_trace none de icons := by
  refine ⟨rfl, ?_, ?_⟩ <;> simp [load_lifetime_wishes_trace]

/-- C9: creating a save whose name is already taken hits the UNIQUE
constraint: the caller gets the constraint error, the table is unchanged
(in particular the count of rows with that name is preserved), and nothing
is partially written; a fresh name is inserted with `is_active = false`. -/
theorem c9_duplicate_save_name_rejected (name desc today : String) (db : DB) :
    (db.saves.any (fun s => s.name == name) = true →
      create_new_save name desc today db = (db, some SqlError.constraintViolation) ∧
      (create_new_save name desc today db).1.saves.countP (fun s => s.name == name) =
        db.saves.countP fun s => s.name == name) ∧
    (db.saves.any (fun s => s.name == name) = false →
      (create_new_save name desc today db).2 = none ∧
      (create_new_save name desc today db).1.saves =
        db.saves ++ [{ id := db.next_save_id, name := name, description := desc,
                       created_date := today, is_active := false }]) := by
  constructor <;> intro h <;> simp [create_new_save, h]

/-- Witness for C9 at the spec's scenario: a second "Alpha" is rejected and
the store still holds exactly one "Alpha" row. -/
theorem c9_duplicate_save_name_rejected_witness :
    create_new_save "Alpha" "" "2024-03-01" exampleDb9 =
      (exampleDb9, some SqlError.constraintViolation) ∧
    (create_new_save "Alpha" "" "2024-03-01" exampleDb9).1.saves.countP
      (fun s => s.name == "Alpha") = 1 := by
  have h := (c9_duplicate_save_name_rejected "Alpha" "" "2024-03-01" exampleDb9).1
    (by decide)
  exact ⟨h.1, h.2.trans (by decide)⟩

/-- C10: the upsert rewrites the whole row from its arguments, with the
notes parameter defaulting to `""`; so the checkbox handler (which omits
notes) erases previously stored notes, and a notes-only update on an
already-completed goal re-derives `completed_date` as the date of that
call. -/
theorem c10_upsert_frame_effects (t t' : String) (s g : Nat) (c : Bool)
    (n' : String) (db : DB) (r₀ : ProgressRow)
    (_h₀ : progressFor db s g = some r₀) (_hn : r₀.notes ≠ "")
    (_hc : r₀.completed = true) :
    notesDefault = "" ∧
    ((progressFor (checkbox_update t s g c db) s g).map fun r => r.notes) = some "" ∧
    ((progressFor (notes_update t' s g true n' db) s g).map
        fun r => (r.completed, r.completed_date)) = some (true, some t') := by
  refine ⟨rfl, ?_, ?_⟩
  · rw [checkbox_update, progressFor_update]; rfl
  · rw [notes_update, progressFor_update]; rfl

/-- Witness for C10: a store whose progress row is completed with non-empty
notes. -/
theorem c10_upsert_frame_effects_witness :
    ((progressFor (checkbox_update "2024-03-05" 1 7 true exampleDb10) 1 7).map
        fun r => r.notes) = some "" ∧
    ((progressFor (notes_update "2024-03-06" 1 7 true "redo" exampleDb10) 1 7).map
        fun r => (r.completed, r.completed_date)) = some (true, some "2024-03-06") := by
  have h := c10_upsert_frame_effects "2024-03-05" "2024-03-06" 1 7 true "redo"
    exampleDb10
    { id := 3, save_id := 1, lifetime_wish_id := 7, completed := true,
      completed_date := some "2024-02-01", notes := "with the neighbour" }
    (by decide) (by decide) (by decide)
  exact ⟨h.2.1, h.2.2⟩

/-! ## Preservation of the saves-table invariant -/

theorem set_active_save_saves (i : Nat) (db : DB) :
    (set_active_save i db).saves =
      db.saves.map fun s => { s with is_active := decide (s.id = i) } := by
  simp only [set_active_save]
  rw [List.map_map]
  refine List.map_congr_left fun s _ => ?_
  by_cases h : s.id = i <;> simp [Function.comp, h]

theorem countP_id_le_one (i : Nat) (l : List Save)
    (h : (l.map Save.id).Nodup) :
    (l.countP fun s => decide (s.id = i)) ≤ 1 := by
  induction l with
  | nil => simp
  | cons a l ih =>
    rw [List.map_cons, List.nodup_cons] at h
    obtain ⟨hni, hnd⟩ := h
    rw [List.countP_cons]
    by_cases hai : a.id = i
    · have hz : (l.countP fun s => decide (s.id = i)) = 0 := by
        rw [List.countP_eq_zero]
        intro s hs
        simp only [decide_eq_true_eq]
        intro heq
        have hmem : s.id ∈ l.map Save.id := List.mem_map_of_mem Save.id hs
        rw [heq, ← hai] at hmem
        exact hni hmem
      simp [hai, hz]
    · simp [hai]
      exact ih hnd

theorem countActive_set_active_save (i : Nat) (db : DB)
    (h : (db.saves.map Save.id).Nodup) :
    countActive (set_active_save i db).saves ≤ 1 := by
  rw [countActive, set_active_save_saves, List.countP_map]
  exact countP_id_le_one i db.saves h

theorem nodup_ids_append (l : List Save) (k : Nat) (hnd : (l.map Save.id).Nodup)
    (hlt : ∀ s ∈ l, s.id < k) : ((l.map Save.id) ++ [k]).Nodup := by
  rw [List.nodup_append]
  refine ⟨hnd, List.nodup_singleton _, ?_⟩
  intro x hx hx'
  rcases List.mem_map.mp hx with ⟨s, hs, rfl⟩
  rw [List.mem_singleton] at hx'
  exact Nat.ne_of_lt (hlt s hs) hx'

theorem savesInv_create_new_save (n d t : String) (db : DB) (h : SavesInv db) :
    SavesInv (create_new_save n d t db).1 := by
  obtain ⟨hnd, hlt, hcnt⟩ := h
  unfold create_new_save
  split
  · exact ⟨hnd, hlt, hcnt⟩
  · refine ⟨?_, ?_, ?_⟩
    · rw [List.map_append]
      exact nodup_ids_append db.saves db.next_save_id hnd hlt
    · intro s hs
      rcases List.mem_append.mp hs with hs | hs
      · exact Nat.lt_succ_of_lt (hlt s hs)
      · rw [List.mem_singleton] at hs
        rw [hs]
        exact Nat.lt_succ_self _
    · rw [countActive, List.countP_append]
      simpa [countActive] using hcnt

theorem foldl_insertWishRow_saves (t : String) (de : Bool) (icons : List String)
    (rows : List CsvRow) (conn : DB) :
    (rows.foldl (insertWishRow t de icons) conn).saves = conn.saves ∧
    (rows.foldl (insertWishRow t de icons) conn).next_save_id = conn.next_save_id := by
  induction rows generalizing conn with
  | nil => exact ⟨rfl, rfl⟩
  | cons row rows ih =>
    simpa [List.foldl] using ih (insertWishRow t de icons conn row)

theorem savesInv_step (db : DB) (op : Op) (h : SavesInv db) : SavesInv (step db op) := by
  cases op with
  | createSave n d t => exact savesInv_create_new_save n d t db h
  | activateSave i =>
    show SavesInv (set_active_save i db)
    refine ⟨?_, ?_, countActive_set_active_save i db h.1⟩
    · rw [set_active_save_saves, List.map_map]
      exact h.1
    · rw [set_active_save_saves]
      intro s hs
      rcases List.mem_map.mp hs with ⟨a, ha, rfl⟩
      exact h.2.1 a ha
  | upsertProgress t s g c notes => exact h
  | reloadWishes t file de icons =>
    cases file with
    | none => exact h
    | some rows =>
      obtain ⟨hs, hn⟩ := foldl_insertWishRow_saves t de icons rows
        { db with lifetime_wishes := [] }
      show SavesInv (rows.foldl (insertWishRow t de icons) { db with lifetime_wishes := [] })
      unfold SavesInv countActive
      rw [hs, hn]
      exact h

/-- C2: from any well-formed store, every sequence of service operations
leaves at most one save active; `set_active_save` amounts to clearing
`is_active` everywhere and setting it exactly on the target id, and a
successful `create_new_save` appends its save with `is_active = false`. -/
theorem c2_at_most_one_active_save (db : DB) (ops : List Op) (h : SavesInv db) :
    countActive (run db ops).saves ≤ 1 ∧
    (∀ (i : Nat) (d : DB), (set_active_save i d).saves =
        d.saves.map fun s => { s with is_active := decide (s.id = i) }) ∧
    ∀ (n desc t : String) (d : DB), (create_new_save n desc t d).2 = none →
      (create_new_save n desc t d).1.saves =
        d.saves ++ [{ id := d.next_save_id, name := n, description := desc,
                      created_date := t, is_active := false }] := by
  refine ⟨?_, fun i d => set_active_save_saves i d, ?_⟩
  · have hinv : SavesInv (run db ops) := by
      induction ops generalizing db with
      | nil => exact h
      | cons op ops ih => exact ih (step db op) (savesInv_step db op h)
    exact hinv.2.2
  · intro n desc t d hok
    by_cases hdup : d.saves.any (fun s => s.name == n) = true
    · simp [create_new_save, hdup] at hok
    · simp [create_new_save, hdup]

/-- Witness for C2: the freshly created store, one create and one activate
later, still has at most one active save. -/
theorem c2_at_most_one_active_save_witness :
    countActive (run (create_database "2024-01-01")
      [Op.createSave "Second Family" "" "2024-01-02", Op.activateSave 2]).saves ≤ 1 :=
  (c2_at_most_one_active_save (create_database "2024-01-01")
    [Op.createSave "Second Family" "" "2024-01-02", Op.activateSave 2] (by decide)).1

/-! ## The single-pass underscore replacement -/

theorem pyReplaceFuel_squeeze (fuel : Nat) (s : List Char) (h : s.length ≤ fuel) :
    pyReplaceFuel ['_', '_'] ['_'] fuel s = squeeze s := by
  induction fuel generalizing s with
  | zero =>
    cases s with
    | nil => rfl
    | cons c rest => exact absurd h (by simp)
  | succ fuel ih =>
    match s with
    | [] => rfl
    | [c] =>
      simp [pyReplaceFuel, squeeze, List.isPrefixOf]
    | a :: b :: t =>
      simp only [pyReplaceFuel, squeeze]
      by_cases hab : a = '_' ∧ b = '_'
      · obtain ⟨rfl, rfl⟩ := hab
        rw [if_pos ⟨by simp, by simp [List.isPrefixOf]⟩, if_pos ⟨rfl, rfl⟩]
        have ht : t.length ≤ fuel := by
          simp only [List.length_cons] at h
          omega
        simpa using ih t ht
      · rw [if_neg, if_neg hab]
        · have ht : (b :: t).length ≤ fuel := by
            simp only [List.length_cons] at h
            simp only [List.length_cons]
            omega
          rw [ih (b :: t) ht]
        · intro hcon
          apply hab
          have hpre := hcon.2
          simp only [List.isPrefixOf, Bool.and_eq_true, beq_iff_eq] at hpre
          exact ⟨hpre.1.symm, hpre.2.1.symm⟩

theorem startsU_squeeze (s : List Char) : startsU (squeeze s) = startsU s := by
  match s with
  | [] => rfl
  | [c] => rfl
  | a :: b :: t =>
    rw [squeeze]
    by_cases hab : a = '_' ∧ b = '_'
    · rw [if_pos hab]
      obtain ⟨rfl, -⟩ := hab
      rfl
    · rw [if_neg hab]
      rfl

theorem hasDoubleU_cons (x : Char) (l : List Char) :
    hasDoubleU (x :: l) = (((x == '_') && startsU l) || hasDoubleU l) := by
  cases l <;> simp [hasDoubleU, startsU]

theorem startsUU_cons (x : Char) (l : List Char) :
    startsUU (x :: l) = ((x == '_') && startsU l) := by
  cases l <;> simp [startsUU, startsU]

theorem hasTripleU_cons (x : Char) (l : List Char) :
    hasTripleU (x :: l) = (((x == '_') && startsUU l) || hasTripleU l) := by
  match l with
  | [] => simp [hasTripleU, startsUU]
  | [a] => simp [hasTripleU, startsUU]
  | a :: b :: t => simp [hasTripleU, startsUU, Bool.and_assoc]

theorem squeeze_no_double (s : List Char) (h : hasTripleU s = false) :
    hasDoubleU (squeeze s) = false := by
  induction s using squeeze.induct with
  | case1 => rfl
  | case2 c => rfl
  | case3 a b t hab ih =>
    obtain ⟨rfl, rfl⟩ := hab
    rw [hasTripleU_cons, hasTripleU_cons, startsUU_cons] at h
    simp only [Bool.or_eq_false_iff, Bool.and_eq_false_iff] at h
    rw [squeeze, if_pos ⟨rfl, rfl⟩, hasDoubleU_cons]
    have h1 : startsU t = false := by
      rcases h.1 with h' | h'
      · simp at h'
      · rcases h' with h' | h'
        · simp at h'
        · exact h'
    have h3 : hasTripleU t = false := h.2.2
    simp [startsU_squeeze, h1, ih h3]
  | case4 a b t hab ih =>
    rw [hasTripleU_cons] at h
    simp only [Bool.or_eq_false_iff] at h
    rw [squeeze, if_neg hab, hasDoubleU_cons]
    have hbt : ((a == '_') && startsU (squeeze (b :: t))) = false := by
      rw [startsU_squeeze]
      show ((a == '_') && (b == '_')) = false
      by_cases ha : a = '_' <;> by_cases hb : b = '_'
      · exact absurd ⟨ha, hb⟩ hab
      · simp [hb]
      · simp [ha]
      · simp [ha]
    rw [hbt, ih h.2]
    rfl

/-- C7 counterexample: the normalisation of `"a - b"` is `"a__b"` — the
single `replace("__", "_")` pass leaves two consecutive underscores
whenever the intermediate string contains three in a row. -/
theorem c7_double_underscore_survives :
    clean_name "a - b" = "a__b" ∧ hasDoubleU (clean_name "a - b").data = true := by
  decide

/-- C7 amended: normalisation lowercases, strips apostrophes, double
quotes, commas and colons, turns hyphens and spaces into underscores, and
replaces each non-overlapping pair of underscores by one in a single
left-to-right pass; whenever the string entering that pass has no run of
three consecutive underscores, the result has no two consecutive
underscores. -/
theorem c7_normalisation_single_pass (name : String)
    (h : hasTripleU (preClean name).data = false) :
    hasDoubleU (clean_name name).data = false := by
  have hdata : (clean_name name).data =
      pyReplaceFuel ['_', '_'] ['_'] (preClean name).data.length (preClean name).data := by
    rfl
  rw [hdata, pyReplaceFuel_squeeze _ _ (Nat.le_refl _)]
  exact squeeze_no_double _ h

/-- Witness for C7: a name whose intermediate form has no triple
underscore normalises with no doubled underscore. -/
theorem c7_normalisation_single_pass_witness :
    hasDoubleU (clean_name "hello world").data = false :=
  c7_normalisation_single_pass "hello world" (by decide)

/-! ## Equivalence of the resolver cascade with its spec description -/

theorem find?_specific_mappings (clean : String) :
    ((specific_mappings.find? fun kv => kv.1 == clean).map Prod.snd) =
      specLookup clean := by
  unfold specific_mappings specLookup
  by_cases h1 : clean = "season_traveler"
  · subst h1; simp [List.find?]
  by_cases h2 : clean = "fashion_phenomenon"
  · subst h2; simp [List.find?]
  by_cases h3 : clean = "paranormal_profiteer"
  · subst h3; simp [List.find?]
  by_cases h4 : clean = "nectar_making"
  · subst h4; simp [List.find?]
  · have b1 : ("season_traveler" == clean) = false := by
      rw [beq_eq_false_iff_ne]; exact fun e => h1 e.symm
    have b2 : ("fashion_phenomenon" == clean) = false := by
      rw [beq_eq_false_iff_ne]; exact fun e => h2 e.symm
    have b3 : ("paranormal_profiteer" == clean) = false := by
      rw [beq_eq_false_iff_ne]; exact fun e => h3 e.symm
    have b4 : ("nectar_making" == clean) = false := by
      rw [beq_eq_false_iff_ne]; exact fun e => h4 e.symm
    simp [List.find?, b1, b2, b3, b4, h1, h2, h3, h4]

theorem find?_patterns_to_try (clean : String) (files : List String) :
    ((patterns_to_try clean).find? fun p => files.contains p) =
      (if files.contains (clean ++ ".png") then some (clean ++ ".png")
       else if files.contains ("w_lifetime_" ++ clean ++ ".png") then
         some ("w_lifetime_" ++ clean ++ ".png")
       else if files.contains ("w_" ++ clean ++ ".png") then
         some ("w_" ++ clean ++ ".png")
       else none) := by
  unfold patterns_to_try
  by_cases c1 : (clean ++ ".png") ∈ files <;>
    by_cases c2 : ("w_lifetime_" ++ clean ++ ".png") ∈ files <;>
    by_cases c3 : ("w_" ++ clean ++ ".png") ∈ files <;>
    simp [List.find?, c1, c2, c3]

theorem substringFallback_eq_spec (parts : List String) (files : List String) :
    substringFallback parts files = specFallbackBase icon_base_of parts files := by
  induction files with
  | nil => rfl
  | cons f rest ih =>
    unfold substringFallback specFallbackBase
    rw [List.find?_cons]
    split
    · next heq => rw [if_pos heq]
    · next heq =>
        rw [if_neg (by simp [heq])]
        exact ih

/-- C6 counterexample: for the name `"x A.pngb"` and the single candidate
`"za.pngbz.png"`, the code strips every occurrence of `".png"` from the
candidate (giving base `"zabz"`) and finds no match, while the claim's
"base name without extension" (`"za.pngbz"`) does contain the name part
`"a.pngb"` — so the claimed algorithm and the code disagree. -/
theorem c6_fallback_base_divergence :
    find_icon_file "x A.pngb" true ["za.pngbz.png"] = "PLACEHOLDER" ∧
    find_icon_spec "x A.pngb" ["za.pngbz.png"] = "za.pngbz.png" ∧
    find_icon_file "x A.pngb" true ["za.pngbz.png"] ≠
      find_icon_spec "x A.pngb" ["za.pngbz.png"] := by
  decide

/-- C6 amended: icon resolution applies its rules in strict priority order
with first match winning — static lookup (if the normalized name is a key
and the mapped file is among the candidates), then the three generated
patterns in order, then the substring fallback over the candidate's
filename with every occurrence of ".png" removed (not its base name
without extension), then the "PLACEHOLDER" sentinel. -/
theorem c6_resolution_cascade (name : String) (files : List String) :
    find_icon_file name true files = find_icon_spec_pngstrip name files := by
  simp only [find_icon_file, find_icon_spec_pngstrip, find_icon_spec_with]
  rw [find?_specific_mappings, find?_patterns_to_try, substringFallback_eq_spec]
  simp

/-! ## The left join -/

theorem joinRow_id (db : DB) (save_id : Nat) (w : LifetimeWish) :
    (joinRow db save_id w).id = w.id := by
  unfold joinRow
  split <;> rfl

theorem joinRow_source (db : DB) (save_id : Nat) (w : LifetimeWish) :
    (joinRow db save_id w).source = w.source := by
  unfold joinRow
  split <;> rfl

theorem joinRow_name (db : DB) (save_id : Nat) (w : LifetimeWish) :
    (joinRow db save_id w).name = w.name := by
  unfold joinRow
  split <;> rfl

instance : IsTotal LifetimeWish wishOrder :=
  ⟨fun a b => by
    unfold wishOrder
    rcases lt_trichotomy a.source b.source with h | h | h
    · exact Or.inl (Or.inl h)
    · rcases le_total a.name b.name with hn | hn
      · exact Or.inl (Or.inr ⟨h, hn⟩)
      · exact Or.inr (Or.inr ⟨h.symm, hn⟩)
    · exact Or.inr (Or.inl h)⟩

instance : IsTrans LifetimeWish wishOrder :=
  ⟨fun a b c hab hbc => by
    unfold wishOrder at hab hbc ⊢
    rcases hab with h1 | ⟨h1e, h1n⟩
    · rcases hbc with h2 | ⟨h2e, h2n⟩
      · exact Or.inl (h1.trans h2)
      · exact Or.inl (h2e ▸ h1)
    · rcases hbc with h2 | ⟨h2e, h2n⟩
      · exact Or.inl (h1e ▸ h2)
      · exact Or.inr ⟨h1e.trans h2e, h1n.trans h2n⟩⟩

/-- C8 counterexample: a goal with no progress row for the queried save
comes back with `notes = NULL`, not with empty notes — only `completed`
is `COALESCE`d. -/
theorem c8_absent_progress_notes_are_null :
    ((get_lifetime_wishes_with_progress 1 exampleDb8).map fun r => r.notes) = [none] ∧
    exampleDb8.lifetime_wishes_progress = [] ∧
    ((get_lifetime_wishes_with_progress 1 exampleDb8).map fun r => r.notes) ≠ [some ""] := by
  decide

/-- C8 amended: `get_lifetime_wishes_with_progress` returns every goal
exactly once (the returned ids are a permutation of the goal table's ids),
ordered by source then name, and a goal with no progress row for the save
comes back with `completed = false`, `completed_date = NULL` and
`notes = NULL` (not empty notes). -/
theorem c8_left_join_every_goal_once (save_id : Nat) (db : DB) :
    ((get_lifetime_wishes_with_progress save_id db).map fun r => r.id).Perm
      (db.lifetime_wishes.map fun w => w.id) ∧
    (get_lifetime_wishes_with_progress save_id db).Pairwise
      (fun x y => x.source < y.source ∨ (x.source = y.source ∧ x.name ≤ y.name)) ∧
    ∀ r ∈ get_lifetime_wishes_with_progress save_id db,
      (∀ p ∈ db.lifetime_wishes_progress,
        ¬(p.lifetime_wish_id = r.id ∧ p.save_id = save_id)) →
      r.completed = false ∧ r.completed_date = none ∧ r.notes = none := by
  refine ⟨?_, ?_, ?_⟩
  · rw [get_lifetime_wishes_with_progress, List.map_map]
    have hmap : (List.insertionSort wishOrder db.lifetime_wishes).map
        ((fun r => r.id) ∘ joinRow db save_id) =
        (List.insertionSort wishOrder db.lifetime_wishes).map fun w => w.id := by
      refine List.map_congr_left fun w _ => ?_
      exact joinRow_id db save_id w
    rw [hmap]
    exact (List.perm_insertionSort wishOrder db.lifetime_wishes).map fun w => w.id
  · rw [get_lifetime_wishes_with_progress, List.pairwise_map]
    have hs : List.Pairwise wishOrder (List.insertionSort wishOrder db.lifetime_wishes) :=
      List.sorted_insertionSort wishOrder db.lifetime_wishes
    refine hs.imp fun {a b} hab => ?_
    rw [joinRow_source, joinRow_source, joinRow_name, joinRow_name]
    exact hab
  · intro r hr hno
    rw [get_lifetime_wishes_with_progress] at hr
    rcases List.mem_map.mp hr with ⟨w, hw, rfl⟩
    simp only [joinRow_id] at hno
    have hfind : (db.lifetime_wishes_progress.find? fun p =>
        p.lifetime_wish_id == w.id && p.save_id == save_id) = none := by
      rw [List.find?_eq_none]
      intro p hp
      simp only [Bool.and_eq_true, beq_iff_eq, not_and]
      intro hid hsid
      exact hno p hp ⟨hid, hsid⟩
    unfold joinRow
    rw [hfind]
    exact ⟨rfl, rfl, rfl⟩

/-- Witness for C8: the single-goal store's query result ids are a
permutation of its goal-table ids. -/
theorem c8_left_join_every_goal_once_witness :
    ((get_lifetime_wishes_with_progress 1 exampleDb8).map fun r => r.id).Perm
      (exampleDb8.lifetime_wishes.map fun w => w.id) :=
  (c8_left_join_every_goal_once 1 exampleDb8).1

end Sims3
